import Mathlib

/-!
Verification of the media-playback core of `wgpu-media-player`
(src/media_decoder.rs, src/app.rs) against its natural-language
specification, via a shallow embedding in Lean 4.

The embedding models:
* the `ringbuf` SPSC ring buffer (`HeapRb<f32>`) used as the Audio Sample
  Buffer, with its `push_slice` / `pop_slice` semantics (partial writes,
  partial reads, no blocking, no error channel);
* the CPAL audio output callback (`setup_audio_stream`, media_decoder.rs
  lines 299-308), which calls `audio_consumer.pop_slice(data)`;
* the pacing scheduler thread spawned in `MediaDecoder::new`
  (media_decoder.rs lines 157-185);
* the decode driver loop `MediaDecoder::start` (lines 211-268) and the
  shared `VecDeque` video queue with its capacity-50 backpressure check;
* `format_url` from `app.rs` (lines 38-46).

Sample values are kept abstract (a type parameter): none of the claims
depends on the i32-to-f32 scaling of sample values, only on how many
samples move and in which order.
-/

namespace MediaPlayer

/-- Model of `ringbuf::HeapRb` (single-producer single-consumer ring
buffer): a capacity and the queued elements, oldest first. Created in
`MediaDecoder::new` as `HeapRb::<f32>::new(50 * 1024 * 1024)`. -/
structure HeapRb (α : Type) where
  capacity : Nat
  data : List α
deriving Repr, DecidableEq

/-- Free space in the ring buffer. -/
def HeapRb.free {α : Type} (rb : HeapRb α) : Nat :=
  rb.capacity - rb.data.length

/-- Model of `HeapProducer::push_slice` (used at media_decoder.rs line 264):
appends as many elements of the slice as fit in the free space and returns
the count actually appended; any excess is NOT appended, and no error is
reported. The driver at line 264 discards the returned count. -/
def push_slice {α : Type} (rb : HeapRb α) (xs : List α) : HeapRb α × Nat :=
  let k := min rb.free xs.length
  ({ rb with data := rb.data ++ xs.take k }, k)

/-- Model of `HeapConsumer::pop_slice` (used in the CPAL callback at
media_decoder.rs line 303): removes `k = min(available, out.length)` oldest
elements from the buffer, writes them into the first `k` positions of the
out-slice, leaves the remaining positions of the out-slice unchanged, and
returns the new buffer, the resulting out-slice contents, and `k`. -/
def pop_slice {α : Type} (rb : HeapRb α) (out : List α) : HeapRb α × List α × Nat :=
  let k := min rb.data.length out.length
  ({ rb with data := rb.data.drop k }, rb.data.take k ++ out.drop k, k)

/-- Model of the CPAL audio output callback closure built in
`setup_audio_stream` (media_decoder.rs lines 302-304):
`move |data, _| { audio_consumer.pop_slice(data); }`.
It performs a single non-blocking `pop_slice` into the out-slice and
returns; there is no error path and no blocking primitive in the body. -/
def audio_callback {α : Type} (rb : HeapRb α) (out : List α) : HeapRb α × List α :=
  let r := pop_slice rb out
  (r.1, r.2.1)

/-- Model of Rust `str::starts_with` with a string pattern: the pattern's
characters are a prefix of the string's characters. -/
def starts_with (s pre : String) : Bool :=
  pre.data.isPrefixOf s.data

/-- Model of `url.replace('\\', "/")` (app.rs line 42): every backslash
character is replaced by a forward slash (a single-character pattern
replaced by a single-character string is a character map). -/
def replace_backslash (s : String) : String :=
  ⟨s.data.map (fun c => if c = '\\' then '/' else c)⟩

/-- Model of `format_url` (app.rs lines 38-46). The `cfg!(target_os =
"windows")` compile-time switch is the boolean parameter. -/
def format_url (windows : Bool) (url : String) : String :=
  if starts_with url "http" then
    url
  else if windows then
    "file:///" ++ replace_backslash url
  else
    "file://" ++ url

/-! ## Pacing scheduler (media_decoder.rs lines 157-185)

The scheduler thread state is `prev_pts : Option<i64>` and
`now : Instant` (the reference instant, reset to `Instant::now()` each
time a frame is delivered, line 180). Wall-clock instants are modelled
as nanosecond counts (`Nat`); `elapsed` is the nanoseconds between the
reference instant and the moment the pacing decision is taken
(`now.elapsed()`, line 169). Timestamps are `i64` PTS values already
rescaled to nanoseconds (line 232), modelled as `Int`. -/

/-- Rust cast `x as u32` on an `i64`: the low 32 bits, i.e. the
mathematical remainder of `x` modulo 2^32. -/
def asU32 (x : Int) : Nat :=
  (x % 4294967296).toNat

/-- The sleep-target duration built at media_decoder.rs line 171:
`std::time::Duration::new(0, (pts - prev) as u32)`, in nanoseconds.
(`Duration::new` carries nanoseconds at or above 10^9 into seconds, so
the duration is exactly the cast value in nanoseconds.) -/
def sleep_target (prev pts : Int) : Nat :=
  asU32 (pts - prev)

/-- The pacing decision of one scheduler iteration (media_decoder.rs
lines 168-176): `some d` means `spin_sleep::sleep` is called with a
duration of `d` nanoseconds; `none` means no sleep call is made.
The sleep runs only when a previous PTS exists, `pts > prev`, and
`elapsed < sleep_target`. -/
def sleepCall (prev_pts : Option Int) (pts : Int) (elapsed : Nat) : Option Nat :=
  match prev_pts with
  | none => none
  | some prev =>
    if prev < pts then
      if elapsed < sleep_target prev pts then
        some (sleep_target prev pts - elapsed)
      else
        none
    else
      none

/-- Scheduler state: `prev_pts` (line 158) and the reference instant
`now` (line 159), as an absolute nanosecond wall-clock value. -/
structure SchedState where
  prev_pts : Option Int
  now : Nat
deriving Repr, DecidableEq

/-- One delivery of a popped frame with PTS `pts` (media_decoder.rs lines
167-182), given `elapsed` nanoseconds since the reference instant: perform
the pacing sleep (if any), then set `prev_pts := some pts` and reset the
reference instant to the instant of actual delivery
(`now = Instant::now()`, line 180). Sleeps are modelled as exact. Returns
the new state and the nanoseconds slept. -/
def deliverStep (st : SchedState) (pts : Int) (elapsed : Nat) : SchedState × Nat :=
  let slp := (sleepCall st.prev_pts pts elapsed).getD 0
  (⟨some pts, st.now + elapsed + slp⟩, slp)

/-- Deliver a sequence of frames: each list entry is the frame PTS paired
with the `elapsed` nanoseconds measured at its pacing decision. Returns
the final scheduler state. -/
def deliverRun (st : SchedState) : List (Int × Nat) → SchedState
  | [] => st
  | (pts, e) :: rest => deliverRun (deliverStep st pts e).1 rest

/-- The trace of delivery instants (the reference instant recorded at each
delivery, which is the instant `new_frame_callback` is invoked). -/
def deliverTrace (st : SchedState) : List (Int × Nat) → List Nat
  | [] => []
  | (pts, e) :: rest =>
    let st1 := (deliverStep st pts e).1
    st1.now :: deliverTrace st1 rest

/-- A frame sequence is pace-able from previous PTS `p`: timestamps
strictly increase, each consecutive delta is below 2^32 ns (so the u32
cast at line 171 does not truncate), and each iteration's measured
`elapsed` does not exceed the delta. -/
def Paced (p : Int) : List (Int × Nat) → Prop
  | [] => True
  | (t, e) :: rest => p < t ∧ t - p < 4294967296 ∧ (e : Int) ≤ t - p ∧ Paced t rest

/-- Outcome of one iteration of the scheduler loop body
(media_decoder.rs lines 161-184): the loop either continues with a new
state, queue remainder and an optional delivered PTS, or terminates.
The source loop body contains no `break` or `return`, so the
`terminated` outcome is never produced. -/
inductive LoopOutcome where
  | running (st : SchedState) (queue : List (Int × Nat)) (delivered : Option Int)
  | terminated
deriving Repr, DecidableEq

/-- `VecDeque::pop_back` on a front-first list: removes and returns the
last (oldest, since the driver pushes with `push_front`) element. -/
def popBack {α : Type} (q : List α) : Option (List α × α) :=
  match q.reverse with
  | [] => none
  | x :: rest => some (rest.reverse, x)

/-- One full iteration of the scheduler loop body (media_decoder.rs lines
161-184): sleep 10 ms, print, `pop_back` the queue; if a frame was popped,
pace and deliver it; in every case fall through to the next iteration.
Each queue entry carries the PTS and the `elapsed` value measured at line
169 for that iteration. -/
def schedLoopIter (st : SchedState) (q : List (Int × Nat)) : LoopOutcome :=
  match popBack q with
  | none => .running st q none
  | some (q1, (pts, e)) => .running (deliverStep st pts e).1 q1 (some pts)

/-! ## Decode driver (media_decoder.rs lines 211-268)

`MediaDecoder::start` loops: while the video queue holds 50 or more
frames it sleeps 10 ms and re-checks (lines 213-216); then it reads the
next packet, breaking out of the loop if `next_packet()` returns `Err`
(lines 218-220); a packet on the video stream is decoded (a decode error
skips to the next packet, lines 223-225), filtered, and the resulting
`(pts_nano, rgba)` pair is `push_front`ed onto the video queue (lines
241-244); a packet on the audio stream is decoded (a decode error skips,
lines 249-251), filtered, converted, and `push_slice`d into the audio
ring (line 264). -/

/-- A demuxed packet together with the outcome of handing it to the
matching decoder: `stream` is `packet.get_stream_index()`; `vdecode` is
the video decode-plus-filter result, `(pts_nano, rgba_data)` when the
decoder returns `Ok` and `none` when it returns `Err`; `adecode` likewise
is the converted sample list or `none` on decoder `Err`. The decoders are
external (ffmpeg), so their outcomes are data of the model. -/
structure Packet (α : Type) where
  stream : Int
  vdecode : Option (Int × List Nat)
  adecode : Option (List α)
deriving Repr

/-- Driver-visible shared state: the video frame queue (front-first, as a
`VecDeque` pushed with `push_front`) and the audio sample ring buffer. -/
structure DriverState (α : Type) where
  vq : List (Int × List Nat)
  ab : HeapRb α
deriving Repr

/-- The audio branch of the driver loop body (media_decoder.rs lines
248-266): on the audio stream, a decode error skips the packet; otherwise
the converted samples are pushed with `push_slice` (returned count
discarded). -/
def handleAudio {α : Type} (aidx : Int) (st : DriverState α) (pk : Packet α) :
    DriverState α :=
  if pk.stream = aidx then
    match pk.adecode with
    | none => st
    | some samples => { st with ab := (push_slice st.ab samples).1 }
  else
    st

/-- The per-packet body of the driver loop after a successful
`next_packet` (media_decoder.rs lines 222-266): the video branch first
(a video decode error `continue`s, skipping the rest of the body), then
the audio branch. -/
def handlePacket {α : Type} (vidx aidx : Int) (st : DriverState α) (pk : Packet α) :
    DriverState α :=
  if pk.stream = vidx then
    match pk.vdecode with
    | none => st
    | some vf => handleAudio aidx { st with vq := vf :: st.vq } pk
  else
    handleAudio aidx st pk

/-- The driver loop over the packet source (media_decoder.rs lines
212-267), with the capacity check abstracted (see `SysStep` below for the
backpressure model): `next_packet()` yields `some pk` on `Ok` and `none`
on `Err`; the loop `break`s at the first `none` and otherwise processes
the packet and continues. -/
def driverRun {α : Type} (vidx aidx : Int) (st : DriverState α) :
    List (Option (Packet α)) → DriverState α
  | [] => st
  | none :: _ => st
  | some pk :: rest => driverRun vidx aidx (handlePacket vidx aidx st pk) rest

/-- The packets the driver actually processes: the maximal prefix of the
source on which `next_packet` keeps succeeding. -/
def okPrefix {α : Type} : List (Option (Packet α)) → List (Packet α)
  | [] => []
  | none :: _ => []
  | some pk :: rest => pk :: okPrefix rest

/-! ## Backpressure on the video queue (media_decoder.rs lines 213-216,
241-244, 167)

Concurrency model for the capacity bound: the driver thread and the
scheduler thread interleave. The driver is either at the top of its loop
(`checked = false`) or past the capacity check and not yet done with the
current packet (`checked = true`). The check at line 213 only passes when
the queue length is below 50; the scheduler's `pop_back` (line 167) may
interleave anywhere and only shrinks the queue. One packet pushes at most
one frame (`frames.first()`, line 227). -/

/-- Joint state of the two threads for the capacity-bound argument:
the video queue length and whether the driver has passed the capacity
check for the current iteration. -/
structure Sys where
  qlen : Nat
  checked : Bool
deriving Repr, DecidableEq

/-- Interleaved transitions of the driver and scheduler threads. -/
inductive SysStep : Sys → Sys → Prop
  /-- Driver at loop top passes the capacity check (line 213): only when
  the queue length is below 50. When the length is 50 or more the driver
  sleeps and re-checks, taking no transition. -/
  | check (n : Nat) (hlt : n < 50) :
      SysStep ⟨n, false⟩ ⟨n, true⟩
  /-- Driver pushes the decoded frame of a video packet (line 244) and
  returns to the loop top. -/
  | push (n : Nat) :
      SysStep ⟨n, true⟩ ⟨n + 1, false⟩
  /-- Driver finishes an iteration without a video push (audio packet,
  decode error, or source exhausted) and returns to the loop top. -/
  | skip (n : Nat) :
      SysStep ⟨n, true⟩ ⟨n, false⟩
  /-- Scheduler pops a frame (line 167). -/
  | pop (n : Nat) (c : Bool) (hpos : 0 < n) :
      SysStep ⟨n, c⟩ ⟨n - 1, c⟩

/-- States reachable from session start (empty queue, driver at loop
top). -/
inductive SysReach : Sys → Prop
  | init : SysReach ⟨0, false⟩
  | step {s s1 : Sys} : SysReach s → SysStep s s1 → SysReach s1

/-! ## FIFO delivery (media_decoder.rs lines 241-244 and 161-184)

The driver `push_front`s frames; the scheduler `pop_back`s them. To state
order preservation we track the history: everything ever pushed and
everything ever delivered. -/

/-- Queue-history state: the current queue (front-first), the pushes in
order, and the deliveries in order. -/
structure QSys (α : Type) where
  queue : List α
  pushed : List α
  delivered : List α
deriving Repr, DecidableEq

/-- Interleaved queue operations: the driver's `push_front` (line 244)
and the scheduler's `pop_back` (line 167), each under the mutex. -/
inductive QStep {α : Type} : QSys α → QSys α → Prop
  | push (q pushed delivered : List α) (x : α) :
      QStep ⟨q, pushed, delivered⟩ ⟨x :: q, pushed ++ [x], delivered⟩
  | pop (q1 : List α) (x : α) (pushed delivered : List α) :
      QStep ⟨q1 ++ [x], pushed, delivered⟩ ⟨q1, pushed, delivered ++ [x]⟩

/-- Queue-history states reachable from session start. -/
inductive QReach {α : Type} : QSys α → Prop
  | init : QReach ⟨[], [], []⟩
  | step {s s1 : QSys α} : QReach s → QStep s s1 → QReach s1

/-! ## Shared helper lemmas -/

/-- For a positive delta below 2^32 the u32 cast at media_decoder.rs
line 171 is exact. -/
theorem sleep_target_eq_toNat (prev pts : Int) (hlt : prev < pts)
    (hsmall : pts - prev < 4294967296) :
    sleep_target prev pts = (pts - prev).toNat := by
  unfold sleep_target asU32
  rw [Int.emod_eq_of_lt (by omega) hsmall]

/-- Computation of the pacing decision in the exact (non-truncating)
regime. -/
theorem sleepCall_eq (p t : Int) (e : Nat) (hlt : p < t)
    (hsmall : t - p < 4294967296) :
    sleepCall (some p) t e =
      if e < (t - p).toNat then some ((t - p).toNat - e) else none := by
  simp only [sleepCall]
  rw [if_pos hlt, sleep_target_eq_toNat p t hlt hsmall]

/-- One paced delivery in the exact regime advances the reference instant
by exactly the timestamp delta and records the new previous PTS. -/
theorem deliverStep_eq (st : SchedState) (p t : Int) (e : Nat)
    (hprev : st.prev_pts = some p) (hlt : p < t)
    (hsmall : t - p < 4294967296) (he : (e : Int) ≤ t - p) :
    (deliverStep st t e).1 = ⟨some t, st.now + (t - p).toNat⟩ := by
  unfold deliverStep
  rw [hprev, sleepCall_eq p t e hlt hsmall]
  by_cases hc : e < (t - p).toNat
  · rw [if_pos hc]
    simp only [Option.getD_some]
    congr 1
    omega
  · rw [if_neg hc]
    simp only [Option.getD_none]
    congr 1
    omega

/-- Every frame of a paced sequence has a PTS above the starting previous
PTS. -/
theorem Paced_lt {p : Int} {l : List (Int × Nat)} (h : Paced p l) :
    ∀ f ∈ l, p < f.1 := by
  induction l generalizing p with
  | nil => intro f hf; cases hf
  | cons hd rest ih =>
    obtain ⟨h1, _, _, h4⟩ := h
    intro f hf
    rcases List.mem_cons.mp hf with hf | hf
    · subst hf; exact h1
    · exact lt_trans h1 (ih h4 f hf)

/-! ## Claims -/

/-- Claim C10: `format_url` returns the input unchanged when it starts
with "http"; otherwise on non-Windows targets it prepends "file://", and
on Windows targets it prepends "file:///" and replaces every backslash
with a forward slash. -/
theorem format_url_correct (w : Bool) (s : String) :
    (starts_with s "http" = true → format_url w s = s) ∧
    (starts_with s "http" = false →
      format_url false s = "file://" ++ s ∧
      format_url true s = "file:///" ++ replace_backslash s) := by
  constructor
  · intro h
    simp [format_url, h]
  · intro h
    constructor <;> simp [format_url, h]

/-- Witness for C10 at concrete inputs. -/
theorem format_url_correct_witness :
    format_url true "http://x" = "http://x" ∧
    format_url false "a\\b" = "file://" ++ "a\\b" ∧
    format_url true "a\\b" = "file:///" ++ replace_backslash "a\\b" := by
  refine ⟨(format_url_correct true "http://x").1 (by decide), ?_, ?_⟩
  · exact ((format_url_correct false "a\\b").2 (by decide)).1
  · exact ((format_url_correct true "a\\b").2 (by decide)).2

/-- Claim C1 counterexample: with an empty Audio Sample Buffer (a full
underrun) and a one-entry out-slice holding the stale value 5, the audio
callback leaves the out-slice as [5]: the unavailable remainder is NOT
zero-filled, contradicting the claim that every unavailable entry is
filled with silence. -/
theorem audio_callback_not_zero_filled :
    (audio_callback (HeapRb.mk 4 ([] : List Int)) [5]).2 = [5] ∧
    (audio_callback (HeapRb.mk 4 ([] : List Int)) [5]).2 ≠ [0] := by
  constructor <;> decide

/-- Claim C1 amended: on every invocation with an out-slice of n entries,
the audio callback performs a single non-blocking `pop_slice`: it writes
the k = min(available, n) oldest buffered samples into the first k
entries, leaves the remaining n - k entries of the slice unchanged
(rather than zero-filling them), removes exactly those k samples from the
buffer, and the slice length is preserved; the callback never blocks and
never reports an error (it is a total function with no error outcome). -/
theorem audio_callback_spec {α : Type} (rb : HeapRb α) (out : List α) :
    (audio_callback rb out).2 =
      rb.data.take (min rb.data.length out.length) ++
        out.drop (min rb.data.length out.length) ∧
    (audio_callback rb out).1.data =
      rb.data.drop (min rb.data.length out.length) ∧
    ((audio_callback rb out).2).length = out.length := by
  refine ⟨rfl, rfl, ?_⟩
  simp [audio_callback, pop_slice]

/-- Claim C2 counterexample: with the Audio Sample Buffer full (capacity
2 holding [1, 2]), pushing the decoded sample 3 leaves the buffer
unchanged and returns a pushed-count of 0: the sample is silently
dropped, with no blocking and no BufferFull error, contradicting the
claim that no already-decoded sample is ever silently dropped. -/
theorem push_slice_drops_when_full :
    (push_slice (HeapRb.mk 2 [(1 : Int), 2]) [3]).1.data = [1, 2] ∧
    (push_slice (HeapRb.mk 2 [(1 : Int), 2]) [3]).2 = 0 := by
  constructor <;> decide

/-- Claim C2 amended: a push of decoded samples appends exactly the first
min(free, n) samples of the slice to the buffer and silently discards the
remainder, returning the appended count (which the driver at
media_decoder.rs line 264 ignores); it never blocks and reports no
error. -/
theorem push_slice_spec {α : Type} (rb : HeapRb α) (xs : List α) :
    (push_slice rb xs).1.data = rb.data ++ xs.take (min rb.free xs.length) ∧
    (push_slice rb xs).2 = min rb.free xs.length ∧
    (push_slice rb xs).1.capacity = rb.capacity :=
  ⟨rfl, rfl, rfl⟩

/-- Claim C5: for the first frame (no previous timestamp) and for any
frame whose timestamp is at most the previous one, the scheduler makes no
sleep call at all (the frame is delivered with zero added pacing delay),
and whenever a sleep call is made its duration is strictly positive. -/
theorem no_sleep_first_or_nonincreasing (p t : Int) (e : Nat) :
    sleepCall none t e = none ∧
    (t ≤ p → sleepCall (some p) t e = none) ∧
    (∀ d, sleepCall (some p) t e = some d → 0 < d) := by
  refine ⟨rfl, ?_, ?_⟩
  · intro h
    simp only [sleepCall]
    rw [if_neg (not_lt.mpr h)]
  · intro d hd
    simp only [sleepCall] at hd
    by_cases hp : p < t
    · rw [if_pos hp] at hd
      by_cases he : e < sleep_target p t
      · rw [if_pos he] at hd
        have := Option.some.inj hd
        omega
      · rw [if_neg he] at hd
        exact absurd hd (Option.noConfusion)
    · rw [if_neg hp] at hd
      exact absurd hd (Option.noConfusion)

/-- Witness for C5 at concrete inputs. -/
theorem no_sleep_witness :
    sleepCall (some 5) 3 0 = none ∧ (0 : Nat) < 1000 :=
  ⟨(no_sleep_first_or_nonincreasing 5 3 0).2.1 (by decide),
   (no_sleep_first_or_nonincreasing 0 1000 0).2.2 1000 (by decide)⟩

/-- Claim C6 counterexample: for previous PTS 5 and current PTS
5 + 2^32 (a delta of about 4.3 seconds), the constructed sleep target is
0 ns, not 2^32 ns: the `as u32` cast at media_decoder.rs line 171
truncates the i64 delta, so the target is not exact for every
magnitude. -/
theorem sleep_target_truncates :
    sleep_target 5 4294967301 = 0 ∧ (0 : Nat) ≠ 4294967296 := by
  constructor <;> decide

/-- Claim C6 amended: the sleep target the scheduler constructs equals
(current - previous) mod 2^32 nanoseconds; it equals the exact timestamp
delta precisely when the delta is below 2^32 ns (about 4.29 s). -/
theorem sleep_target_exact_below_u32 (prev pts : Int) (hlt : prev < pts)
    (hsmall : pts - prev < 4294967296) :
    sleep_target prev pts = (pts - prev).toNat :=
  sleep_target_eq_toNat prev pts hlt hsmall

/-- Witness for the amended C6 at a concrete 33 ms delta. -/
theorem sleep_target_exact_witness :
    sleep_target 0 33000000 = 33000000 :=
  (sleep_target_exact_below_u32 0 33000000 (by decide) (by decide)).trans (by decide)

/-- Claim C3 counterexample: with previous PTS 0 recorded at reference
instant 0 and a frame with PTS 2^32 ns (delta about 4.3 s) popped with
elapsed 0, the scheduler performs no sleep and delivers at instant 0: the
wall-clock gap is 0 ns, not the timestamp delta, because the delta is
truncated by the u32 cast at media_decoder.rs line 171. So the gap does
not equal the delta for every sequence of strictly increasing
timestamps. -/
theorem pacing_gap_wrong_at_large_delta :
    (deliverStep ⟨some 0, 0⟩ 4294967296 0).2 = 0 ∧
    (deliverStep ⟨some 0, 0⟩ 4294967296 0).1.now = 0 ∧
    (0 : Nat) ≠ 4294967296 := by
  refine ⟨?_, ?_, by decide⟩ <;> decide

/-- Claim C3 amended: restricted to consecutive timestamp deltas below
2^32 ns (the u32 cast at line 171 truncates larger deltas) and with
sleeps modelled as exact: for every frame sequence with strictly
increasing timestamps in which each iteration's measured elapsed time
does not exceed the delta, the scheduler sleeps exactly delta - elapsed
when elapsed < delta and resets the reference instant to the delivery
instant each iteration, so the i-th delivery happens exactly at
start + (t_i - t_0) — successive gaps equal the timestamp deltas and no
drift compounds over the sequence. -/
theorem pacing_no_drift (frames : List (Int × Nat)) :
    ∀ (st : SchedState) (p : Int), st.prev_pts = some p → Paced p frames →
      deliverTrace st frames = frames.map (fun f => st.now + (f.1 - p).toNat) := by
  induction frames with
  | nil => intro st p _ _; rfl
  | cons hd rest ih =>
    intro st p hprev hp
    obtain ⟨t, e⟩ := hd
    obtain ⟨hlt, hsmall, he, hrest⟩ := hp
    have hstep := deliverStep_eq st p t e hprev hlt hsmall he
    simp only [deliverTrace, hstep]
    have htail := ih ⟨some t, st.now + (t - p).toNat⟩ t rfl hrest
    simp only [htail, List.map_cons, List.cons.injEq]
    refine ⟨by simp, ?_⟩
    apply List.map_congr_left
    intro f hf
    have hft : t < f.1 := Paced_lt hrest f hf
    show st.now + (t - p).toNat + (f.1 - t).toNat = st.now + (f.1 - p).toNat
    omega

/-- Witness for the amended C3: two frames 30 ns and 70 ns after a
previous PTS of 0, with elapsed 10 ns and 40 ns, are delivered exactly at
instants 130 and 170 from a reference instant of 100. -/
theorem pacing_no_drift_witness :
    deliverTrace ⟨some 0, 100⟩ [((30 : Int), (10 : Nat)), (70, 40)] =
      [((30 : Int), (10 : Nat)), (70, 40)].map (fun f => 100 + (f.1 - 0).toNat) :=
  pacing_no_drift [((30 : Int), (10 : Nat)), (70, 40)] ⟨some 0, 100⟩ 0 rfl
    (by refine ⟨by decide, by decide, by decide, by decide, by decide, by decide, trivial⟩)

/-- Claim C4: the Video Frame Queue never holds more than 50 frames: the
driver's capacity check at media_decoder.rs line 213 only passes when the
length is below 50 (otherwise the driver sleeps and re-checks, pushing
nothing and reading no packet), at most one frame is pushed per passed
check, and the scheduler's pops only shrink the queue — so in every state
reachable from session start the queue length is at most 50, and whenever
the driver is past its check the length is strictly below 50. -/
theorem video_queue_bounded (s : Sys) (h : SysReach s) :
    s.qlen ≤ 50 ∧ (s.checked = true → s.qlen < 50) := by
  induction h with
  | init => exact ⟨by decide, by simp⟩
  | step hr hs ih =>
    cases hs with
    | check n hlt => exact ⟨ih.1, fun _ => hlt⟩
    | push n =>
      have h2 : n < 50 := ih.2 rfl
      refine ⟨?_, by simp⟩
      show n + 1 ≤ 50
      omega
    | skip n => exact ⟨ih.1, by simp⟩
    | pop n c hpos =>
      have h1 : n ≤ 50 := ih.1
      refine ⟨?_, fun hc => ?_⟩
      · show n - 1 ≤ 50
        omega
      · have h2 : n < 50 := ih.2 hc
        show n - 1 < 50
        omega

/-- Witness for C4 at a concrete reachable state: start, pass the check,
push one frame. -/
theorem video_queue_bounded_witness :
    (Sys.mk 1 false).qlen ≤ 50 :=
  (video_queue_bounded ⟨1, false⟩
    (SysReach.step
      (SysReach.step SysReach.init (SysStep.check 0 (by decide)))
      (SysStep.push 0))).1

/-- Claim C7: delivery order equals enqueue order, each enqueued frame
delivered exactly once: in every reachable queue-history state, the
sequence of frames pushed so far is exactly the sequence delivered so far
followed by the still-queued frames (oldest last in the front-first
queue) — so the delivered sequence is always a prefix of the push
sequence, with no reordering, no duplication and no loss. -/
theorem fifo_delivery {α : Type} (s : QSys α) (h : QReach s) :
    s.pushed = s.delivered ++ s.queue.reverse := by
  induction h with
  | init => rfl
  | step hr hs ih =>
    cases hs with
    | push q pushed delivered x => simp_all
    | pop q1 x pushed delivered => simp_all

/-- Witness for C7 at a concrete reachable state: push 1, push 2, pop
(delivering 1, the oldest). -/
theorem fifo_delivery_witness :
    ([1, 2] : List Nat) = [1] ++ ([2] : List Nat).reverse :=
  fifo_delivery ⟨[2], [1, 2], [1]⟩
    (QReach.step
      (QReach.step
        (QReach.step QReach.init (QStep.push [] [] [] 1))
        (QStep.push [1] [1] [] 2))
      (QStep.pop [2] 1 [1, 2] []))

/-- Claim C8 counterexample: with no previous PTS, reference instant 0
and an empty queue (the state after the decode driver has stopped pushing
and the queue has drained), one iteration of the scheduler loop yields a
running outcome with unchanged state — not the terminal outcome: the loop
at media_decoder.rs lines 161-184 contains no break, so it does not
terminate cleanly when the stream has ended and the queue is empty. -/
theorem sched_loop_empty_not_terminal :
    schedLoopIter ⟨none, 0⟩ [] = LoopOutcome.running ⟨none, 0⟩ [] none ∧
    schedLoopIter ⟨none, 0⟩ [] ≠ LoopOutcome.terminated := by
  constructor <;> decide

/-- Claim C8 amended: the scheduler's delivery loop never reaches a
terminal state: on an empty queue it delivers nothing and continues with
unchanged state (sleeping 10 ms per iteration), and no iteration, on any
queue, produces the terminated outcome. -/
theorem sched_loop_never_terminates (st : SchedState) (q : List (Int × Nat)) :
    schedLoopIter st [] = LoopOutcome.running st [] none ∧
    schedLoopIter st q ≠ LoopOutcome.terminated := by
  refine ⟨rfl, ?_⟩
  unfold schedLoopIter
  rcases h : popBack q with _ | ⟨q1, pts, e⟩ <;> simp

/-- Witness for C8 (amended) at a concrete state and queue. -/
theorem sched_loop_never_terminates_witness :
    schedLoopIter ⟨some 7, 3⟩ [] = LoopOutcome.running ⟨some 7, 3⟩ [] none :=
  (sched_loop_never_terminates ⟨some 7, 3⟩ [(5, 2)]).1

/-- Claim C9: the driver loop terminates exactly at source exhaustion —
it processes precisely the maximal prefix of the packet source on which
`next_packet` succeeds, breaking at the first error — and a single
packet's decode failure is non-fatal: a video-stream packet whose decoder
errs, or an audio-stream packet whose decoder errs, leaves both the video
queue and the audio buffer unchanged (the packet is skipped and the loop
continues with the next packet). -/
theorem driver_terminates_and_skips {α : Type} (vidx aidx : Int)
    (src : List (Option (Packet α))) (st : DriverState α) (pk : Packet α) :
    driverRun vidx aidx st src = (okPrefix src).foldl (handlePacket vidx aidx) st ∧
    (pk.stream = vidx → pk.vdecode = none → handlePacket vidx aidx st pk = st) ∧
    (pk.stream = aidx → pk.adecode = none → vidx ≠ aidx →
      handlePacket vidx aidx st pk = st) := by
  refine ⟨?_, ?_, ?_⟩
  · induction src generalizing st with
    | nil => rfl
    | cons hd rest ih =>
      cases hd with
      | none => rfl
      | some pk1 => exact ih (handlePacket vidx aidx st pk1)
  · intro hs hv
    simp [handlePacket, hs, hv]
  · intro hs ha hne
    have hnv : aidx ≠ vidx := Ne.symm hne
    simp [handlePacket, handleAudio, hs, ha, hnv]

/-- Witness for C9 at concrete inputs: a two-packet source followed by an
error, and skipped decode-failure packets on each stream. -/
theorem driver_terminates_and_skips_witness :
    driverRun 0 1 (DriverState.mk [] (HeapRb.mk 4 ([] : List Int)))
        [some ⟨0, none, none⟩, none, some ⟨1, none, none⟩] =
      (okPrefix [some (⟨0, none, none⟩ : Packet Int), none, some ⟨1, none, none⟩]).foldl
        (handlePacket 0 1) (DriverState.mk [] (HeapRb.mk 4 [])) ∧
    handlePacket 0 1 (DriverState.mk [] (HeapRb.mk 4 ([] : List Int))) ⟨0, none, none⟩ =
      DriverState.mk [] (HeapRb.mk 4 []) ∧
    handlePacket 0 1 (DriverState.mk [] (HeapRb.mk 4 ([] : List Int))) ⟨1, none, none⟩ =
      DriverState.mk [] (HeapRb.mk 4 []) :=
  ⟨(driver_terminates_and_skips 0 1 [some ⟨0, none, none⟩, none, some ⟨1, none, none⟩]
      (DriverState.mk [] (HeapRb.mk 4 [])) ⟨0, none, none⟩).1,
   (driver_terminates_and_skips 0 1 [] (DriverState.mk [] (HeapRb.mk 4 []))
      ⟨0, none, none⟩).2.1 rfl rfl,
   (driver_terminates_and_skips 0 1 [] (DriverState.mk [] (HeapRb.mk 4 []))
      ⟨1, none, none⟩).2.2 rfl rfl (by decide)⟩

end MediaPlayer
